import Mathlib

/-!
Verification of the PR TIMES enrichment and reconciliation pipeline.

This file gives a shallow embedding, in Lean 4, of the pure decision logic
of the pipeline scripts:

- `02_analyzer.py`: local suitability filter, the two LLM judge wrappers
  (suitability and Korean-company origin), metadata interpretation,
  intermediate checkpoint saving, and the early-stop loop of `run_analysis`.
- `prtimes_beauty_today.py`: local first filter, the Gemini rate limiter,
  `judge_news_suitability`, and the crawler's chunked checkpoint save.
- `04_to_relate.py`: the row-eligibility filter of `main`, the organization
  upsert with its domain-422 fallback, and the per-run name-to-id map
  discipline of the reconciliation loop.

Remote I/O (HTTP transport and JSON decoding) is abstracted by oracle
parameters of type `Except String _`; everything else is translated
directly from the Python source. Python string operations are modelled
over `List Char` so that all definitions evaluate by kernel reduction.
-/

/-! ## Python string primitives -/

/-- ASCII whitespace, as recognised by Python's `str.strip` and the `\s`
regex class on ASCII input. -/
def isPySpace (c : Char) : Bool :=
  c = ' ' || c = '\t' || c = '\n' || c = '\r' || c = '\x0b' || c = '\x0c'

/-- `str.strip()` on a character list: drop whitespace from both ends. -/
def pyStripL (l : List Char) : List Char :=
  ((l.dropWhile isPySpace).reverse.dropWhile isPySpace).reverse

/-- `str.strip()`. -/
def pyStrip (s : String) : String := ⟨pyStripL s.data⟩

/-- Python's `sub in s` substring test, on character lists. -/
def hasSubList (pat : List Char) : List Char → Bool
  | [] => pat.isEmpty
  | c :: rest => if (c :: rest).take pat.length = pat then true else hasSubList pat rest

/-- Python's `sub in s` substring test on strings. -/
def pyContains (s sub : String) : Bool := hasSubList sub.data s.data

/-- ASCII `str.lower()` on one character. -/
def pyLowerChar (c : Char) : Char :=
  if 'A' ≤ c ∧ c ≤ 'Z' then Char.ofNat (c.toNat + 32) else c

/-- ASCII `str.lower()`. -/
def pyLower (s : String) : String := ⟨s.data.map pyLowerChar⟩

/-- Remove every non-overlapping occurrence of `pat` (left to right), the
effect of Python's `str.replace(pat, "")`.  Fuel-indexed so the recursion
is structural; `fuel ≥ length` always suffices because every step consumes
at least one character. -/
def removeAllFuel (pat : List Char) : Nat → List Char → List Char
  | 0, l => l
  | _ + 1, [] => []
  | fuel + 1, c :: rest =>
    if pat ≠ [] ∧ (c :: rest).take pat.length = pat then
      removeAllFuel pat fuel ((c :: rest).drop pat.length)
    else
      c :: removeAllFuel pat fuel rest

/-- `str.replace(pat, "")`. -/
def removeAll (l pat : List Char) : List Char := removeAllFuel pat l.length l

/-- Truthiness of an optional environment string (`if not KEY:` is taken
when the variable is unset or empty). -/
def pyTruthy : Option String → Bool
  | none => false
  | some s => s ≠ ""

/-! ## 02_analyzer.py: constants and local filter -/

/-- `NEGATIVE_KEYWORDS` of `02_analyzer.py`. -/
def NEGATIVE_KEYWORDS : List String :=
  ["回収", "お詫び", "訂正", "不適合", "中止", "誤記",
   "決算", "人事", "株価", "訃報", "事件", "事故",
   "アンケート", "調査", "実施", "共同"]

/-- `KOREA_KEYWORDS_JA` of `02_analyzer.py`. -/
def KOREA_KEYWORDS_JA : List String :=
  ["韓国", "韓国語", "コリア", "K-POP", "K-ビューティー", "Kビューティー",
   "ソウル", "アモレ", "アモレパシフィック", "エルジー", "LG生活",
   "イニスフリー", "コスメ", "サムスン", "ヒュンダイ", "トルリドン",
   "アヌア", "セウォルス", "コスリックス", "Korea", "Korean", "K-beauty"]

/-- `_is_suitable_value` of `02_analyzer.py`, specialised to the string
values that actually reach it once `_ensure_columns` has stringified every
cell: true exactly when the trimmed, lowercased value is `"true"`. -/
def is_suitable_value (val : String) : Bool :=
  pyLower (pyStrip val) = "true"

/-- `local_suitability_filter` of `02_analyzer.py`: empty or blank titles
pass; otherwise the title fails when it contains any negative keyword. -/
def local_suitability_filter (title_jp : String) : Bool :=
  if title_jp = "" ∨ pyStrip title_jp = "" then true
  else !(NEGATIVE_KEYWORDS.any fun word => pyContains title_jp word)

/-! ## 02_analyzer.py: fenced-code-block stripping

`judge_suitability` and `judge_korean_company` normalise the raw response
with `re.sub(r"```json\s*|\s*```", "", raw)`.  `interpret_metadata_openai`
instead uses the pattern string with doubled backslashes, whose two
alternatives each demand a literal backslash character in the input.  Both
substitutions are embedded below; `re.sub` scans left to right, trying the
first alternative before the second at each position, and neither
alternative can match the empty string. -/

/-- First alternative of the correct pattern: literal "```json" followed by
greedy whitespace.  Returns the rest of the input after the match. -/
def matchFenceOpen (l : List Char) : Option (List Char) :=
  if l.take 7 = "```json".data then some ((l.drop 7).dropWhile isPySpace)
  else none

/-- Second alternative of the correct pattern: greedy whitespace followed by
literal "```".  Backtracking is vacuous here because no whitespace character
can begin "```". -/
def matchFenceClose (l : List Char) : Option (List Char) :=
  let rest := l.dropWhile isPySpace
  if rest.take 3 = "```".data then some (rest.drop 3) else none

/-- First alternative of the buggy metadata pattern: literal "```json"
followed by a literal backslash and then any run of the letter `s`. -/
def matchFenceOpenBug (l : List Char) : Option (List Char) :=
  if l.take 8 = ("```json".data ++ ['\\']) then some ((l.drop 8).dropWhile (· = 's'))
  else none

/-- Second alternative of the buggy metadata pattern: a literal backslash,
a run of the letter `s`, then literal "```". -/
def matchFenceCloseBug : List Char → Option (List Char)
  | '\\' :: rest =>
    let r2 := rest.dropWhile (· = 's')
    if r2.take 3 = "```".data then some (r2.drop 3) else none
  | _ => none

/-- One `re.sub(pat, "", _)` pass for a two-alternative pattern, fuelled so
the recursion is structural.  At each position, try alternative `a`, then
alternative `b`, else keep the character and advance. -/
def reSubFuel (a b : List Char → Option (List Char)) : Nat → List Char → List Char
  | 0, l => l
  | _ + 1, [] => []
  | fuel + 1, c :: rest =>
    match a (c :: rest) with
    | some r => reSubFuel a b fuel r
    | none =>
      match b (c :: rest) with
      | some r => reSubFuel a b fuel r
      | none => c :: reSubFuel a b fuel rest

/-- `re.sub(r"```json\s*|\s*```", "", raw).strip()` — the normalisation in
`judge_suitability` and `judge_korean_company`. -/
def fenceStrip (raw : String) : String :=
  pyStrip ⟨reSubFuel matchFenceOpen matchFenceClose raw.data.length raw.data⟩

/-- `re.sub(r"```json\\s*|\\s*```", "", raw).strip()` — the normalisation in
`interpret_metadata_openai`, with the doubled backslashes of the source. -/
def fenceStripBug (raw : String) : String :=
  pyStrip ⟨reSubFuel matchFenceOpenBug matchFenceCloseBug raw.data.length raw.data⟩

/-- `(response.text or "").replace("```json", "").replace("```", "").strip()`
— the normalisation in `judge_news_suitability` of `prtimes_beauty_today.py`. -/
def crawlerNormalize (raw : String) : String :=
  pyStrip ⟨removeAll (removeAll raw.data "```json".data) "```".data⟩

/-! ## 02_analyzer.py: judge wrappers

The remote call and the JSON decoder are oracles: `remote` is the raw text
of `_call_openai_sync` (or the transport exception's text), and `loads`
models `json.loads` plus the `data.get` field reads on the decoded object.
Every exception raised inside the `try` block of the source lands in the
same `except` branch, which the oracles' `Except.error` cases reproduce. -/

/-- Fields read off the decoded suitability JSON:
`data.get("is_suitable", False)` and `data.get("reason", "")`. -/
structure SuitJson where
  is_suitable : Option Bool
  reason : Option String
deriving DecidableEq

/-- Fields read off the decoded origin JSON:
`data.get("label", "불명")` and `data.get("reason", "")`. -/
structure OriginJson where
  label : Option String
  reason : Option String
deriving DecidableEq

/-- Result of a suitability judge call: the tri-state suitability value
(`none` is the undetermined outcome), the rationale, and how many remote
calls were issued. -/
structure SuitResult where
  suitability : Option Bool
  reason : String
  remoteCalls : Nat
deriving DecidableEq

/-- Result of an origin judge call: label, rationale, remote call count. -/
structure OriginResult where
  label : String
  reason : String
  remoteCalls : Nat
deriving DecidableEq

/-- `judge_suitability` of `02_analyzer.py`. -/
def judge_suitability (apiKey : Option String) (remote : Except String String)
    (loads : String → Except String SuitJson) (title_jp title_ko : String) : SuitResult :=
  if local_suitability_filter title_jp = false then
    ⟨some false, "부적합 키워드 포함 (로컬 필터)", 0⟩
  else if pyTruthy apiKey = false then
    ⟨none, "API Key 없음 (OPENAI_API_KEY)", 0⟩
  else
    match remote with
    | .error e => ⟨some false, "API 오류: " ++ e, 1⟩
    | .ok raw =>
      match loads (fenceStrip raw) with
      | .error e => ⟨some false, "API 오류: " ++ e, 1⟩
      | .ok d => ⟨some (d.is_suitable.getD false), d.reason.getD "", 1⟩

/-- `_has_korea_keyword_in_keywords` of `02_analyzer.py`. -/
def has_korea_keyword_in_keywords (keywords_text : String) : Bool × Option String :=
  if keywords_text = "" ∨ pyStrip keywords_text = "" then (false, none)
  else
    match KOREA_KEYWORDS_JA.find? (fun w => pyContains (pyStrip keywords_text) w) with
    | some w => (true, some w)
    | none => (false, none)

/-- `judge_korean_company` of `02_analyzer.py`. -/
def judge_korean_company (apiKey : Option String) (remote : Except String String)
    (loads : String → Except String OriginJson)
    (company address url keywords : String) : OriginResult :=
  match has_korea_keyword_in_keywords keywords with
  | (true, some w) => ⟨"한국", "키워드(N열)에 한국 관련어 포함: " ++ w, 0⟩
  | _ =>
    if pyTruthy apiKey = false then ⟨"불명", "API Key 없음", 0⟩
    else
      match remote with
      | .error e => ⟨"불명", "API 오류: " ++ e, 1⟩
      | .ok raw =>
        match loads (fenceStrip raw) with
        | .error e => ⟨"불명", "API 오류: " ++ e, 1⟩
        | .ok d =>
          let label0 := d.label.getD "불명"
          let label1 := if label0 = "한국" ∨ label0 = "비한국" ∨ label0 = "불명"
                        then label0 else "불명"
          ⟨label1, d.reason.getD "", 1⟩

/-- Fields read off the decoded metadata-interpretation JSON. -/
structure MetaJson where
  overview_i : Option String
  bizcat_i : Option String
  keywords_i : Option String
  location_i : Option String
  links_i : Option String
deriving DecidableEq

/-- The five translated metadata cells produced by
`interpret_metadata_openai`, plus the remote call count. -/
structure MetaResult where
  overview_i : String
  bizcat_i : String
  keywords_i : String
  location_i : String
  links_i : String
  remoteCalls : Nat
deriving DecidableEq

/-- The all-empty fallback dictionary of `interpret_metadata_openai`. -/
def metaEmpty (calls : Nat) : MetaResult := ⟨"", "", "", "", "", calls⟩

/-- `interpret_metadata_openai` of `02_analyzer.py`.  Note that this
function normalises the raw response with `fenceStripBug`: the source's
regex is written with doubled backslashes, unlike its two siblings. -/
def interpret_metadata_openai (apiKey : Option String) (remote : Except String String)
    (loads : String → Except String MetaJson) : MetaResult :=
  if pyTruthy apiKey = false then metaEmpty 0
  else
    match remote with
    | .error _ => metaEmpty 1
    | .ok raw =>
      match loads (fenceStripBug raw) with
      | .error _ => metaEmpty 1
      | .ok d =>
        ⟨pyStrip (d.overview_i.getD ""), pyStrip (d.bizcat_i.getD ""),
         pyStrip (d.keywords_i.getD ""), pyStrip (d.location_i.getD ""),
         pyStrip (d.links_i.getD ""), 1⟩

/-! ## 02_analyzer.py: early stop and checkpoint save -/

/-- `EARLY_STOP_N` is configurable in the model; the source fixes it to 10. -/
def EARLY_STOP_N : Nat := 10

/-- `SAVE_INTERVAL` of both scripts. -/
def SAVE_INTERVAL : Nat := 5

/-- How `_ensure_columns` stringifies the suitability cell before it is
appended to `results`: `True`/`False` become `"True"`/`"False"` via `str`,
and `None` is NaN-like and becomes the empty string. -/
def storedSuit : Option Bool → String
  | none => ""
  | some true => "True"
  | some false => "False"

/-- The record loop of `run_analysis`, reduced to the data the early-stop
test consumes: `outcomes` lists, in source order, the suitability value
each record receives.  After processing record `current` the accumulated
`results` column is `(outcomes.take current).map storedSuit`; at
`current = M` the loop takes the last `M` entries of `results` and breaks
when none of them is a suitable value.  Returns the number of processed
records. -/
def earlyStopGo (M : Nat) (outcomes : List (Option Bool)) :
    List (Option Bool) → Nat → Nat
  | [], processed => processed
  | _ :: rest, processed =>
    let current := processed + 1
    let res := (outcomes.take current).map storedSuit
    let lastM := res.drop (res.length - M)
    if current = M ∧ lastM.all (fun s => !is_suitable_value s) then current
    else earlyStopGo M outcomes rest current

/-- Number of records processed by `run_analysis` with early-stop bound `M`
on a run whose per-record suitability outcomes are `outcomes`. -/
def run_analysis_processed (M : Nat) (outcomes : List (Option Bool)) : Nat :=
  earlyStopGo M outcomes outcomes 0

/-- A line-level rendering of `DataFrame.to_csv(path, index=False)`: header
line then one line per buffered row, each newline-terminated.  Rows are
abstracted as their rendered text. -/
def csvText (header : String) (rows : List String) : String :=
  String.join ((header :: rows).map (· ++ "\n"))

/-- Body-only rendering (no header line). -/
def csvBody (rows : List String) : String :=
  String.join (rows.map (· ++ "\n"))

/-- `_save_intermediate` of `02_analyzer.py`: overwrite the ledger file with
the full accumulated buffer.  The file state is `none` when the file does
not exist yet. -/
def save_intermediate (header : String) (results : List String)
    (_file : Option String) : Option String :=
  some (csvText header results)

/-! ## prtimes_beauty_today.py: local filter, rate governor, judge, save -/

/-- `NEGATIVE_KEYWORDS_JA` of `prtimes_beauty_today.py` (same list as the
analyzer's `NEGATIVE_KEYWORDS`). -/
def NEGATIVE_KEYWORDS_JA : List String :=
  ["回収", "お詫び", "訂正", "不適合", "中止", "誤記",
   "決算", "人事", "株価", "訃報", "事件", "事故",
   "アンケート", "調査", "実施", "共同"]

/-- `local_first_filter` of `prtimes_beauty_today.py`: `(False, reason)` on
the first matching negative keyword, `(True, None)` otherwise. -/
def local_first_filter (title_jp : String) : Bool × Option String :=
  if title_jp = "" ∨ pyStrip title_jp = "" then (true, none)
  else
    match NEGATIVE_KEYWORDS_JA.find? (fun word => pyContains title_jp word) with
    | some word => (false, some ("부적합 키워드 포함 (" ++ word ++ ")"))
    | none => (true, none)

/-- `GEMINI_RATE_LIMIT_CALLS`. -/
def GEMINI_RATE_LIMIT_CALLS : Nat := 15

/-- `GEMINI_RATE_LIMIT_WINDOW_SEC`. -/
def GEMINI_RATE_LIMIT_WINDOW_SEC : ℚ := 60

/-- The `while` loop of `_wait_gemini_rate_limit`, executed under the lock.
State: the timestamp queue (oldest first), the current monotonic time, and
the total time slept so far.  While the queue is full, compute
`wait = oldest + window − now`; sleep that long when positive (advancing the
clock), then pop the oldest entry. -/
def rateWaitGo : List ℚ → ℚ → ℚ → (List ℚ × ℚ × ℚ)
  | [], now, waited => ([], now, waited)
  | t :: rest, now, waited =>
    if GEMINI_RATE_LIMIT_CALLS ≤ (t :: rest).length then
      let w := t + GEMINI_RATE_LIMIT_WINDOW_SEC - now
      if 0 < w then rateWaitGo rest (now + w) (waited + w)
      else rateWaitGo rest now waited
    else (t :: rest, now, waited)

/-- `_wait_gemini_rate_limit` of `prtimes_beauty_today.py`: returns the
queue after the wait loop, the monotonic time on exit, and the total time
slept. -/
def wait_gemini_rate_limit (q : List ℚ) (now : ℚ) : List ℚ × ℚ × ℚ :=
  rateWaitGo q now 0

/-- `_record_gemini_call`: append the current time to the deque, which has
`maxlen = GEMINI_RATE_LIMIT_CALLS` and so drops its oldest entry when full. -/
def record_gemini_call (q : List ℚ) (now : ℚ) : List ℚ :=
  let q2 := q ++ [now]
  q2.drop (q2.length - GEMINI_RATE_LIMIT_CALLS)

/-- `judge_news_suitability` of `prtimes_beauty_today.py` (the Gemini model
construction and throttling around the remote call are elided; the remote
oracle stands for the generated response or the exception text). -/
def judge_news_suitability (apiKey : Option String) (remote : Except String String)
    (loads : String → Except String SuitJson) (title_jp title_ko : String) : SuitResult :=
  match local_first_filter title_jp with
  | (false, r) => ⟨some false, r.getD "", 0⟩
  | (true, _) =>
    if pyTruthy apiKey = false then
      ⟨none, "API Key 없음 (Gemini_Git_API_Key 환경변수 설정)", 0⟩
    else
      match remote with
      | .error e => ⟨some false, "API 오류: " ++ e, 1⟩
      | .ok raw =>
        match loads (crawlerNormalize raw) with
        | .error e => ⟨some false, "API 오류: " ++ e, 1⟩
        | .ok d => ⟨some (d.is_suitable.getD false), d.reason.getD "", 1⟩

/-- The checkpoint save of the crawler's `main` loop: at record `i`
(1-based) it computes `start_idx = (i - 1) // SAVE_INTERVAL * SAVE_INTERVAL`,
takes `results[start_idx:i]`, and appends that chunk to the output file
(`mode="a"`), writing the header line only when the file does not exist. -/
def crawler_checkpoint_save (header : String) (results : List String) (i : Nat)
    (file : Option String) : Option String :=
  let start_idx := (i - 1) / SAVE_INTERVAL * SAVE_INTERVAL
  let chunk := (results.drop start_idx).take (i - start_idx)
  let text := (if file.isNone then header ++ "\n" else "") ++ csvBody chunk
  some (file.getD "" ++ text)

/-! ## 04_to_relate.py: row eligibility, organization upsert, run map -/

/-- `col(row, key) = str(row.get(key, "") or "").strip()`.  A row is an
association list from header names to cell strings; a missing key reads as
the empty cell, which matches the header-padding in `main`. -/
def col (row : List (String × String)) (key : String) : String :=
  pyStrip ((row.lookup key).getD "")

/-- The row-filtering loop of `main` in `04_to_relate.py`: walk the data
rows in order and keep those passing all four `continue` guards; rows that
pass the first three guards but already carry a non-empty
`Relate_등록여부` status are counted as skipped.  Returns
(target rows, skip count). -/
def selectTargets : List (List (String × String)) →
    List (List (String × String)) × Nat
  | [] => ([], 0)
  | row :: rest =>
    let next := selectTargets rest
    if pyLower (col row "영업 적합성") ≠ "true" then next
    else if col row "한국 회사 여부" ≠ "비한국" then next
    else if col row "이메일" = "" ∨ pyContains (pyLower (col row "이메일")) "wordpress" = true then
      next
    else if col row "Relate_등록여부" ≠ "" then (next.1, next.2 + 1)
    else (row :: next.1, next.2)

/-- The conjunction of the four eligibility guards of the reconciliation
loop, as one predicate: trimmed suitability equals "true" case-insensitively,
trimmed origin label is exactly 비한국, trimmed email is non-empty and free
of "wordpress" case-insensitively, and the trimmed status cell is empty. -/
def rowEligible (row : List (String × String)) : Bool :=
  (pyLower (col row "영업 적합성") == "true") &&
  (col row "한국 회사 여부" == "비한국") &&
  (!(col row "이메일" == "") && !pyContains (pyLower (col row "이메일")) "wordpress") &&
  (col row "Relate_등록여부" == "")

/-- The JSON body of an organization create/update request: the optional
`name` key (present on POST, absent on PATCH), the `custom_fields` value,
and the optional `domains` list. -/
structure OrgPayload where
  name : Option String
  customFields : List (String × String)
  domains : Option (List String)
deriving DecidableEq

/-- `if domain:` — truthiness of the optional domain string. -/
def domainTruthy : Option String → Bool
  | none => false
  | some d => d ≠ ""

/-- The `payload` dict built at the top of `upsert_organization`:
`{"custom_fields": custom_fields}` plus `{"domains": [domain]}` when the
domain is truthy; no `name` key. -/
def orgPayloadBase (cf : List (String × String)) (domain : Option String) : OrgPayload :=
  { name := none
    customFields := cf
    domains := match domain with
      | some d => if d ≠ "" then some [d] else none
      | none => none }

/-- `upsert_organization` of `04_to_relate.py`.  `send isPatch payload` is
the remote oracle giving the HTTP status of one request.  Returns the list
of issued requests (PATCH flag and body, in order) and the outcome:
`(org_id, action)` on success, the failing status (from
`raise_for_status`, which raises at status ≥ 400) on failure.  On a 422
with a truthy domain, the same write is reissued once with the `domains`
key removed. -/
def upsert_organization (send : Bool → OrgPayload → Nat) (respId : String)
    (name : String) (cf : List (String × String)) (domain : Option String)
    (existing_org_id : Option String) :
    List (Bool × OrgPayload) × Except Nat (String × String) :=
  let pl := orgPayloadBase cf domain
  match existing_org_id with
  | some org_id =>
    let s1 := send true pl
    if s1 = 422 ∧ domainTruthy domain = true then
      let pl2 : OrgPayload := { pl with domains := none }
      let s2 := send true pl2
      ([(true, pl), (true, pl2)],
       if s2 < 400 then .ok (org_id, "updated") else .error s2)
    else
      ([(true, pl)], if s1 < 400 then .ok (org_id, "updated") else .error s1)
  | none =>
    let pl1 : OrgPayload := { pl with name := some name }
    let s1 := send false pl1
    if s1 = 422 ∧ domainTruthy domain = true then
      let pl2 : OrgPayload := { pl with name := some name, domains := none }
      let s2 := send false pl2
      ([(false, pl1), (false, pl2)],
       if s2 < 400 then .ok (respId, "created") else .error s2)
    else
      ([(false, pl1)], if s1 < 400 then .ok (respId, "created") else .error s1)

/-- Outcome of one organization upsert in the reconciliation loop. -/
inductive OrgEvent where
  | created (name : String)
  | updated (name : String)
  | failed (name : String)
deriving DecidableEq

/-- One iteration of the reconciliation loop's organization step, at the
upsert level: consult the run-local `existing_org_map`; a hit is an update
of the mapped id, a miss is a create.  `ok` says whether the remote write
succeeds (an exception leaves the map untouched and marks the row failed);
after a successful create the map gains the new id
(`existing_org_map[name] = org_id`). -/
def orgRunStep (m : List (String × String)) :
    String × Bool × String → List (String × String) × OrgEvent
  | (name, ok, newId) =>
    match m.lookup name with
    | some org_id => if ok then ((name, org_id) :: m, .updated name) else (m, .failed name)
    | none => if ok then ((name, newId) :: m, .created name) else (m, .failed name)

/-- The organization side of the reconciliation loop of `main`: fold
`orgRunStep` over the eligible rows (given as (org name, write succeeds,
fresh id) triples), starting from the name-to-id map loaded before any
writes.  Returns the final map and the per-row events in order. -/
def orgRun (m : List (String × String)) :
    List (String × Bool × String) → List (String × String) × List OrgEvent
  | [] => (m, [])
  | row :: rest =>
    let step := orgRunStep m row
    let next := orgRun step.1 rest
    (next.1, step.2 :: next.2)

/-- `build_existing_org_map_by_name` of `04_to_relate.py`, after the
pagination loop has concatenated all pages: walk the listed organizations
and record `out[name] = id` for every entry with non-blank name and id
(later entries overwrite earlier ones, as dict assignment does). -/
def build_existing_org_map_by_name (orgs : List (String × String)) :
    List (String × String) :=
  orgs.foldl
    (fun out o =>
      if pyStrip o.1 ≠ "" ∧ pyStrip o.2 ≠ "" then (pyStrip o.1, pyStrip o.2) :: out
      else out)
    []

/-! ## Helper lemmas -/

/-- Every character of a matched substring occurs in the containing string. -/
theorem hasSubList_subset {pat l : List Char} (h : hasSubList pat l = true) :
    ∀ c ∈ pat, c ∈ l := by
  induction l with
  | nil =>
    simp [hasSubList, List.isEmpty_iff] at h
    simp [h]
  | cons x rest ih =>
    intro c hc
    rw [hasSubList] at h
    split at h
    · next heq =>
      have hmem : c ∈ (x :: rest).take pat.length := by rw [heq]; exact hc
      exact List.mem_of_mem_take hmem
    · exact List.mem_cons_of_mem x (ih h c hc)

/-- If stripping leaves nothing, every character was whitespace. -/
theorem pyStripL_eq_nil {l : List Char} (h : pyStripL l = []) :
    ∀ c ∈ l, isPySpace c = true := by
  unfold pyStripL at h
  rw [List.reverse_eq_nil_iff, List.dropWhile_eq_nil_iff] at h
  intro c hc
  rcases (List.takeWhile_append_dropWhile (p := isPySpace) (l := l)) ▸ hc |> List.mem_append.mp with h1 | h2
  · exact List.mem_takeWhile_imp h1
  · exact h c (List.mem_reverse.mpr h2)

/-- A string containing a negative keyword is not blank. -/
theorem title_not_blank {title w : String} (hw : w ∈ NEGATIVE_KEYWORDS)
    (hc : pyContains title w = true) : ¬(title = "" ∨ pyStrip title = "") := by
  have hne : w.data ≠ [] ∧ w.data.any (fun c => !isPySpace c) = true := by
    fin_cases hw <;> exact ⟨by decide, by decide⟩
  obtain ⟨c, hcw, hcsp⟩ := List.any_eq_true.mp hne.2
  have hcl : c ∈ title.data := hasSubList_subset hc c hcw
  rintro (h | h)
  · rw [h] at hcl; exact absurd hcl (by simp [String.data])
  · have : pyStripL title.data = [] := by
      have := congrArg String.data h
      simpa [pyStrip] using this
    have := pyStripL_eq_nil this c hcl
    simp [this] at hcsp

/-- The stored suitability string is a suitable value exactly for records
decided suitable; `None` (undetermined) and `False` both store as
non-suitable strings. -/
theorem is_suitable_storedSuit (o : Option Bool) :
    (!is_suitable_value (storedSuit o)) = (o != some true) := by
  cases o with
  | none => decide
  | some b => cases b <;> decide

/-- Loop invariant computation for the early-stop loop. -/
theorem earlyStopGo_spec (M : Nat) (outcomes : List (Option Bool)) :
    ∀ rest processed, processed ≤ outcomes.length → rest = outcomes.drop processed →
      earlyStopGo M outcomes rest processed =
        if processed < M ∧ M ≤ outcomes.length ∧
            ((outcomes.take M).map storedSuit).all (fun s => !is_suitable_value s)
        then M else outcomes.length := by
  intro rest
  induction rest with
  | nil =>
    intro processed hle hdrop
    have hlen : outcomes.length ≤ processed := by
      by_contra hlt
      push_neg at hlt
      have := List.drop_eq_nil_iff.mp hdrop.symm
      omega
    have hpe : processed = outcomes.length := le_antisymm hle hlen
    rw [earlyStopGo]
    rw [if_neg]
    · exact hpe
    · rintro ⟨h1, h2, _⟩; omega
  | cons o rest' ih =>
    intro processed hle hdrop
    have hplt : processed < outcomes.length := by
      by_contra hge
      push_neg at hge
      have : outcomes.drop processed = [] := List.drop_eq_nil_iff.mpr hge
      rw [this] at hdrop
      exact absurd hdrop (by simp)
    have hdrop' : rest' = outcomes.drop (processed + 1) := by
      have h1 : outcomes.drop (processed + 1) = (outcomes.drop processed).drop 1 := by
        rw [List.drop_drop]
      rw [h1, ← hdrop]
      simp
    have hreslen : ((outcomes.take (processed + 1)).map storedSuit).length = processed + 1 := by
      simp [List.length_take]
      omega
    rw [earlyStopGo]
    by_cases hM : processed + 1 = M
    · -- the early-stop check fires at this record
      have hMle : M ≤ outcomes.length := by omega
      have hdropz :
          ((outcomes.take (processed + 1)).map storedSuit).drop
              (((outcomes.take (processed + 1)).map storedSuit).length - M) =
            (outcomes.take M).map storedSuit := by
        rw [hreslen, hM]
        simp
      by_cases hall :
          ((outcomes.take M).map storedSuit).all (fun s => !is_suitable_value s) = true
      · rw [if_pos ⟨hM, by rw [hdropz]; exact hall⟩, if_pos ⟨by omega, hMle, hall⟩]
        exact hM
      · rw [if_neg (by rintro ⟨_, h2⟩; rw [hdropz] at h2; exact hall h2)]
        rw [ih (processed + 1) (by omega) hdrop']
        rw [if_neg (by rintro ⟨h1, _⟩; omega), if_neg (by rintro ⟨_, _, h3⟩; exact hall h3)]
    · -- no check at this record; recurse
      rw [if_neg (by rintro ⟨h1, _⟩; exact hM h1)]
      rw [ih (processed + 1) (by omega) hdrop']
      by_cases hcond : processed + 1 < M ∧ M ≤ outcomes.length ∧
          ((outcomes.take M).map storedSuit).all (fun s => !is_suitable_value s)
      · rw [if_pos hcond, if_pos ⟨by omega, hcond.2⟩]
      · rw [if_neg hcond, if_neg]
        rintro ⟨h1, h2, h3⟩
        exact hcond ⟨by omega, h2, h3⟩

/-- C1 (amended): the early stop fires exactly when `M ≥ 1`, the run has at
least `M` records, and none of the first `M` records was decided suitable;
`undetermined` outcomes (stored as the empty cell) count toward stopping
exactly like explicit `unsuitable` ones. -/
theorem early_stop_characterization (M : Nat) (outcomes : List (Option Bool)) :
    run_analysis_processed M outcomes =
      if 0 < M ∧ M ≤ outcomes.length ∧ (outcomes.take M).all (fun o => o != some true)
      then M else outcomes.length := by
  have h := earlyStopGo_spec M outcomes outcomes 0 (by omega) (by simp)
  rw [run_analysis_processed, h]
  have hmap : ∀ l : List (Option Bool), (l.map storedSuit).all (fun s => !is_suitable_value s)
      = l.all (fun o => o != some true) := by
    intro l
    induction l with
    | nil => rfl
    | cons o rest ih => simp only [List.map_cons, List.all_cons, ih, is_suitable_storedSuit o]
  simp only [hmap]

/-- C1 (counterexample): with `M = 10` and eleven records all judged
`undetermined` (no credential or remote failure), the first ten outcomes are
all undetermined, yet the run stops after record 10 instead of continuing
past it as the claim requires. -/
theorem early_stop_counterexample :
    ((List.replicate 11 (none : Option Bool)).take 10).all (fun o => o.isNone) = true ∧
    (List.replicate 11 (none : Option Bool)).length = 11 ∧
    run_analysis_processed EARLY_STOP_N (List.replicate 11 (none : Option Bool)) = 10 := by
  refine ⟨by decide, by decide, by decide⟩

/-- C10: a record whose title is empty or whitespace-only is admitted by
both local filters; it is never locally marked unsuitable. -/
theorem empty_title_admitted (title : String) (h : pyStrip title = "") :
    local_suitability_filter title = true ∧ local_first_filter title = (true, none) := by
  constructor
  · rw [local_suitability_filter, if_pos (Or.inr h)]
  · rw [local_first_filter, if_pos (Or.inr h)]

/-- C10 witness: the empty and an all-whitespace title are both admitted. -/
theorem empty_title_admitted_witness :
    (local_suitability_filter "" = true ∧ local_first_filter "" = (true, none)) ∧
    (local_suitability_filter " \t " = true ∧ local_first_filter " \t " = (true, none)) :=
  ⟨empty_title_admitted "" (by decide), empty_title_admitted " \t " (by decide)⟩

/-- C2 (counterexample): on a transport failure the suitability judge does
not return an undetermined outcome — it returns the explicit negative
`some false` (the same value the explicit `unsuitable` decision carries),
annotated with the failure text. -/
theorem judge_suitability_failure_counterexample :
    judge_suitability (some "k") (Except.error "boom")
        (fun _ => Except.error "x") "新製品を発売" ""
      = ⟨some false, "API 오류: boom", 1⟩ ∧
    (some false : Option Bool) ≠ none := by
  refine ⟨by decide, by decide⟩

/-- C2 (amended): remote transport and parse failures never escape either
judge; each is converted to an annotated result.  `judge_korean_company`
degrades to the undetermined label `불명`, but `judge_suitability` returns
the explicit negative `some false` (not the undetermined `none`), in both
cases with the failure text in the rationale. -/
theorem judge_remote_failure_outcomes (apiKey : Option String) (e : String)
    (loadsS : String → Except String SuitJson)
    (loadsO : String → Except String OriginJson)
    (title_jp title_ko company address url keywords : String)
    (hkey : pyTruthy apiKey = true)
    (hlocal : local_suitability_filter title_jp = true)
    (hkw : (has_korea_keyword_in_keywords keywords).1 = false) :
    judge_suitability apiKey (Except.error e) loadsS title_jp title_ko
      = ⟨some false, "API 오류: " ++ e, 1⟩ ∧
    judge_korean_company apiKey (Except.error e) loadsO company address url keywords
      = ⟨"불명", "API 오류: " ++ e, 1⟩ ∧
    (∀ raw e2, loadsS (fenceStrip raw) = Except.error e2 →
      judge_suitability apiKey (Except.ok raw) loadsS title_jp title_ko
        = ⟨some false, "API 오류: " ++ e2, 1⟩) ∧
    (∀ raw e2, loadsO (fenceStrip raw) = Except.error e2 →
      judge_korean_company apiKey (Except.ok raw) loadsO company address url keywords
        = ⟨"불명", "API 오류: " ++ e2, 1⟩) := by
  have hk : ¬ pyTruthy apiKey = false := by simp [hkey]
  have hl : ¬ local_suitability_filter title_jp = false := by simp [hlocal]
  have hkorea : ∀ r, has_korea_keyword_in_keywords keywords = r →
      judge_korean_company apiKey (Except.error e) loadsO company address url keywords
        = ⟨"불명", "API 오류: " ++ e, 1⟩ := by
    intro r hr
    obtain ⟨b, o⟩ := r
    have hb : b = false := by rw [hr] at hkw; exact hkw
    subst hb
    rw [judge_korean_company, hr]
    simp [hk]
  refine ⟨?_, hkorea _ rfl, ?_, ?_⟩
  · rw [judge_suitability, if_neg hl, if_neg hk]
  · intro raw e2 hload
    rw [judge_suitability, if_neg hl, if_neg hk]
    simp [hload]
  · intro raw e2 hload
    rcases hmm : has_korea_keyword_in_keywords keywords with ⟨b, o⟩
    have hb : b = false := by rw [hmm] at hkw; exact hkw
    subst hb
    rw [judge_korean_company, hmm]
    simp [hk, hload]

/-- C2 witness: a concrete transport failure and a concrete parse failure,
with the key present, a clean title and no Korea keyword. -/
theorem judge_remote_failure_outcomes_witness :
    judge_suitability (some "k") (Except.error "boom")
        (fun _ => Except.error "p") "新製品を発売" ""
      = ⟨some false, "API 오류: boom", 1⟩ ∧
    judge_korean_company (some "k") (Except.error "boom")
        (fun _ => Except.error "p") "社名" "住所" "url" "新製品"
      = ⟨"불명", "API 오류: boom", 1⟩ := by
  have h := judge_remote_failure_outcomes (some "k") "boom"
    (fun _ => Except.error "p") (fun _ => Except.error "p")
    "新製品を発売" "" "社名" "住所" "url" "新製品"
    (by decide) (by decide) (by decide)
  exact ⟨h.1, h.2.1⟩

/-- C3 (counterexample): for a title containing the negative keyword 回収,
the analyzer's judge rejects locally, but its rationale is the fixed text
"부적합 키워드 포함 (로컬 필터)", which names no keyword of the set. -/
theorem local_reject_rationale_counterexample :
    pyContains "自主回収のお知らせ" "回収" = true ∧
    judge_suitability (some "k") (Except.ok "raw") (fun _ => Except.error "e")
        "自主回収のお知らせ" ""
      = ⟨some false, "부적합 키워드 포함 (로컬 필터)", 0⟩ ∧
    NEGATIVE_KEYWORDS.all
        (fun w => !pyContains "부적합 키워드 포함 (로컬 필터)" w) = true := by
  refine ⟨by decide, by decide, by decide⟩

/-- C3 (amended): a title containing a negative keyword is rejected by the
local filter in both scripts, the record is marked unsuitable, and the
remote judge is never called (zero remote calls, for every oracle).  The
crawler's rationale names the first matched keyword; the analyzer's
rationale is the fixed local-filter text that names no keyword. -/
theorem local_filter_short_circuits_judge (title w : String)
    (hw : w ∈ NEGATIVE_KEYWORDS) (hc : pyContains title w = true) :
    local_suitability_filter title = false ∧
    (∀ apiKey remote loads title_ko,
      judge_suitability apiKey remote loads title title_ko
        = ⟨some false, "부적합 키워드 포함 (로컬 필터)", 0⟩) ∧
    (local_first_filter title).1 = false ∧
    (∃ w', w' ∈ NEGATIVE_KEYWORDS_JA ∧ pyContains title w' = true ∧
      (∀ apiKey remote loads title_ko,
        judge_news_suitability apiKey remote loads title title_ko
          = ⟨some false, "부적합 키워드 포함 (" ++ w' ++ ")", 0⟩)) := by
  have hblank := title_not_blank hw hc
  have hfilter : local_suitability_filter title = false := by
    rw [local_suitability_filter, if_neg hblank]
    have hany : NEGATIVE_KEYWORDS.any (fun word => pyContains title word) = true :=
      List.any_eq_true.mpr ⟨w, hw, hc⟩
    simp [hany]
  have hwja : w ∈ NEGATIVE_KEYWORDS_JA := by
    have : NEGATIVE_KEYWORDS = NEGATIVE_KEYWORDS_JA := rfl
    exact this ▸ hw
  obtain ⟨w', hfind⟩ : ∃ w',
      NEGATIVE_KEYWORDS_JA.find? (fun word => pyContains title word) = some w' := by
    have : (NEGATIVE_KEYWORDS_JA.find? (fun word => pyContains title word)).isSome := by
      rw [List.find?_isSome]
      exact ⟨w, hwja, hc⟩
    exact Option.isSome_iff_exists.mp this
  have hw'mem := List.mem_of_find?_eq_some hfind
  have hw'c := List.find?_some hfind
  have hfirst : local_first_filter title
      = (false, some ("부적합 키워드 포함 (" ++ w' ++ ")")) := by
    rw [local_first_filter, if_neg hblank, hfind]
  refine ⟨hfilter, ?_, by rw [hfirst], ⟨w', hw'mem, hw'c, ?_⟩⟩
  · intro apiKey remote loads title_ko
    rw [judge_suitability.eq_def, if_pos (by rw [hfilter])]
  · intro apiKey remote loads title_ko
    rw [judge_news_suitability.eq_def, hfirst]
    simp

/-- C3 witness: a concrete title containing 回収. -/
theorem local_filter_short_circuits_judge_witness :
    local_suitability_filter "自主回収を発表" = false ∧
    judge_suitability (some "k") (Except.ok "raw") (fun _ => Except.error "e")
        "自主回収を発表" ""
      = ⟨some false, "부적합 키워드 포함 (로컬 필터)", 0⟩ ∧
    (local_first_filter "自主回収を発表").1 = false := by
  have h := local_filter_short_circuits_judge "自主回収を発表" "回収"
    (by decide) (by decide)
  exact ⟨h.1, h.2.1 (some "k") (Except.ok "raw") (fun _ => Except.error "e") "", h.2.2.1⟩

/-- A cons on an association list preserves the presence of every key. -/
theorem lookup_cons_isSome (m : List (String × String)) (k v name : String)
    (h : (m.lookup name).isSome) : (((k, v) :: m).lookup name).isSome := by
  rw [List.lookup]
  cases hb : name == k <;> simp [h]

/-- The organization step never removes a name from the run-local map. -/
theorem orgRunStep_preserves_lookup (m : List (String × String))
    (n : String) (ok : Bool) (newId name : String)
    (h : (m.lookup name).isSome) :
    (((orgRunStep m (n, ok, newId)).1).lookup name).isSome := by
  rcases hlk : m.lookup n with _ | oid
  · cases ok
    · simpa [orgRunStep, hlk] using h
    · simp only [orgRunStep, hlk, if_true]
      exact lookup_cons_isSome m n newId name h
  · cases ok
    · simpa [orgRunStep, hlk] using h
    · simp only [orgRunStep, hlk, if_true]
      exact lookup_cons_isSome m n oid name h

/-- After a step reporting a successful create of `name`, the map resolves
`name`. -/
theorem orgRunStep_created_lookup (m : List (String × String))
    (n : String) (ok : Bool) (newId name : String)
    (hev : (orgRunStep m (n, ok, newId)).2 = OrgEvent.created name) :
    (((orgRunStep m (n, ok, newId)).1).lookup name).isSome := by
  rcases hlk : m.lookup n with _ | oid
  · cases ok
    · simp [orgRunStep, hlk] at hev
    · simp only [orgRunStep, hlk, if_true] at hev ⊢
      have hn : n = name := by simpa using hev
      subst hn
      simp [List.lookup]
  · cases ok <;> simp [orgRunStep, hlk] at hev

/-- Once a name is in the map, no later row in the run creates it. -/
theorem orgRun_no_create_of_mem (rows : List (String × Bool × String)) :
    ∀ (m : List (String × String)) (name : String), (m.lookup name).isSome →
      OrgEvent.created name ∉ (orgRun m rows).2 := by
  induction rows with
  | nil => intro m name _; simp [orgRun]
  | cons row rest ih =>
    intro m name hsome
    obtain ⟨n, ok, newId⟩ := row
    simp only [orgRun, List.mem_cons]
    rintro (hev | hev)
    · rcases hlk : m.lookup n with _ | oid
      · cases ok
        · simp [orgRunStep, hlk] at hev
        · simp only [orgRunStep, hlk, if_true] at hev
          have hn : name = n := by simpa using hev
          rw [hn] at hsome
          rw [hlk] at hsome
          simp at hsome
      · cases ok <;> simp [orgRunStep, hlk] at hev
    · exact ih _ name (orgRunStep_preserves_lookup m n ok newId name hsome) hev

/-- Per-name successful-create count over a full run is at most one. -/
theorem orgRun_count_le_one (rows : List (String × Bool × String)) :
    ∀ (m : List (String × String)) (name : String),
      ((orgRun m rows).2.count (OrgEvent.created name)) ≤ 1 := by
  induction rows with
  | nil => intro m name; simp [orgRun]
  | cons row rest ih =>
    intro m name
    obtain ⟨n, ok, newId⟩ := row
    simp only [orgRun]
    rw [List.count_cons]
    by_cases hev : (orgRunStep m (n, ok, newId)).2 = OrgEvent.created name
    · have hm1 := orgRunStep_created_lookup m n ok newId name hev
      have hnot := orgRun_no_create_of_mem rest _ name hm1
      rw [List.count_eq_zero.mpr hnot]
      simp [hev]
    · have hbe : ((orgRunStep m (n, ok, newId)).2 == OrgEvent.created name) = false := by
        simpa using hev
      rw [hbe]
      simpa using ih _ name

/-- C4: within one reconciliation run, each organization name is created at
most once, whatever the initial map, input rows and per-row write outcomes;
two rows sharing a fresh name yield one create then one update, two rows
sharing a pre-existing name yield two updates; and a successful create
immediately records the new id in the run-local map. -/
theorem org_create_at_most_once :
    (∀ (m : List (String × String)) (rows : List (String × Bool × String))
        (name : String),
      ((orgRun m rows).2.count (OrgEvent.created name)) ≤ 1) ∧
    (orgRun [] [("ACME", true, "id1"), ("ACME", true, "id2")]).2
      = [OrgEvent.created "ACME", OrgEvent.updated "ACME"] ∧
    (orgRun [("ACME", "id0")] [("ACME", true, "id1"), ("ACME", true, "id2")]).2
      = [OrgEvent.updated "ACME", OrgEvent.updated "ACME"] ∧
    (∀ (m : List (String × String)) (n newId : String), m.lookup n = none →
      orgRunStep m (n, true, newId) = ((n, newId) :: m, OrgEvent.created n)) := by
  refine ⟨fun m rows name => orgRun_count_le_one rows m name, by decide, by decide,
    fun m n newId hnone => ?_⟩
  simp [orgRunStep, hnone]

/-- C4 witness: a fresh name is created and the map gains its id. -/
theorem org_create_at_most_once_witness :
    orgRunStep [] ("ACME", true, "id1") = ([("ACME", "id1")], OrgEvent.created "ACME") :=
  org_create_at_most_once.2.2.2 [] "ACME" "id1" rfl

/-- C5 (counterexample): the crawler's checkpoint save appends, so flushing
the same one-row buffer twice does not leave byte-identical output. -/
theorem crawler_flush_not_idempotent :
    crawler_checkpoint_save "header" ["row1"] 1
        (crawler_checkpoint_save "header" ["row1"] 1 none)
      ≠ crawler_checkpoint_save "header" ["row1"] 1 none := by decide

/-- C5 (amended): the analyzer's `_save_intermediate` writes the full
buffer as a complete overwrite — its output is independent of the previous
file state, hence idempotent — while the crawler's checkpoint save appends
the latest `SAVE_INTERVAL`-aligned chunk to the existing file. -/
theorem checkpoint_flush_semantics :
    (∀ (header : String) (results : List String) (file : Option String),
      save_intermediate header results file = some (csvText header results)) ∧
    (∀ (header : String) (results : List String) (f f' : Option String),
      save_intermediate header results f = save_intermediate header results f') ∧
    (∀ (header : String) (results : List String) (file : Option String),
      save_intermediate header results (save_intermediate header results file)
        = save_intermediate header results file) ∧
    (∀ (header : String) (results : List String) (i : Nat) (s : String),
      crawler_checkpoint_save header results i (some s)
        = some (s ++ csvBody ((results.drop ((i - 1) / SAVE_INTERVAL * SAVE_INTERVAL)).take
            (i - (i - 1) / SAVE_INTERVAL * SAVE_INTERVAL)))) := by
  refine ⟨fun _ _ _ => rfl, fun _ _ _ _ => rfl, fun _ _ _ => rfl, fun h r i s => ?_⟩
  simp [crawler_checkpoint_save]

/-- The loop below the capacity threshold returns its state unchanged. -/
theorem rateWaitGo_short (q : List ℚ) (now waited : ℚ)
    (h : q.length < GEMINI_RATE_LIMIT_CALLS) :
    rateWaitGo q now waited = (q, now, waited) := by
  cases q with
  | nil => rfl
  | cons t rest =>
    rw [rateWaitGo, if_neg]
    omega

/-- The wait loop only pops entries from the front of the queue. -/
theorem rateWaitGo_drop (q : List ℚ) :
    ∀ (now waited : ℚ), ∃ k, (rateWaitGo q now waited).1 = q.drop k := by
  induction q with
  | nil => intro now waited; exact ⟨0, rfl⟩
  | cons t rest ih =>
    intro now waited
    simp only [rateWaitGo]
    by_cases hfull : GEMINI_RATE_LIMIT_CALLS ≤ (t :: rest).length
    · rw [if_pos hfull]
      by_cases hw : 0 < t + GEMINI_RATE_LIMIT_WINDOW_SEC - now
      · rw [if_pos hw]
        obtain ⟨k, hk⟩ := ih (now + (t + GEMINI_RATE_LIMIT_WINDOW_SEC - now))
          (waited + (t + GEMINI_RATE_LIMIT_WINDOW_SEC - now))
        exact ⟨k + 1, by rw [hk]; rfl⟩
      · rw [if_neg hw]
        obtain ⟨k, hk⟩ := ih now waited
        exact ⟨k + 1, by rw [hk]; rfl⟩
    · rw [if_neg hfull]
      exact ⟨0, rfl⟩

/-- C6 (counterexample): with a full queue of fifteen timestamps at 0 and
`now = 30`, the wait loop sleeps and pops, but the queue it leaves behind
has only fourteen entries and does not contain the admission time — the
current time is not pushed as part of admission. -/
theorem rate_acquire_no_push_counterexample :
    (wait_gemini_rate_limit (List.replicate 15 (0 : ℚ)) 30).1.length = 14 ∧
    (wait_gemini_rate_limit (List.replicate 15 (0 : ℚ)) 30).2.1
      ∉ (wait_gemini_rate_limit (List.replicate 15 (0 : ℚ)) 30).1 := by
  have h : wait_gemini_rate_limit (List.replicate 15 (0 : ℚ)) 30
      = (List.replicate 14 (0 : ℚ), 60, 30) := by
    show rateWaitGo (List.replicate 15 (0 : ℚ)) 30 0 = _
    norm_num [rateWaitGo, GEMINI_RATE_LIMIT_WINDOW_SEC, GEMINI_RATE_LIMIT_CALLS,
      List.replicate]
  rw [h]
  refine ⟨by simp, ?_⟩
  simp [List.mem_replicate]

/-- C6 (amended): on a full queue the wait loop sleeps at least until the
oldest recorded call exits the window; the recorded-timestamp queue never
exceeds the capacity; but admission itself only pops entries — the current
time is appended to the queue by the separate `_record_gemini_call`, which
runs only after the remote call. -/
theorem rate_governor_behaviour :
    (∀ (t : ℚ) (rest : List ℚ) (now : ℚ),
      (t :: rest).length = GEMINI_RATE_LIMIT_CALLS →
      (wait_gemini_rate_limit (t :: rest) now).2.2
        ≥ t + GEMINI_RATE_LIMIT_WINDOW_SEC - now) ∧
    (∀ (q : List ℚ) (now : ℚ),
      (record_gemini_call q now).length ≤ GEMINI_RATE_LIMIT_CALLS) ∧
    (∀ (q : List ℚ) (now : ℚ), ∃ k, (wait_gemini_rate_limit q now).1 = q.drop k) ∧
    (∀ (q : List ℚ) (now : ℚ), (record_gemini_call q now).getLast? = some now) := by
  refine ⟨?_, ?_, fun q now => rateWaitGo_drop q now 0, ?_⟩
  · intro t rest now hlen
    have h14 : rest.length < GEMINI_RATE_LIMIT_CALLS := by
      simp only [List.length_cons] at hlen
      omega
    show (rateWaitGo (t :: rest) now 0).2.2 ≥ _
    simp only [rateWaitGo]
    rw [if_pos (le_of_eq hlen.symm)]
    by_cases hw : 0 < t + GEMINI_RATE_LIMIT_WINDOW_SEC - now
    · rw [if_pos hw, rateWaitGo_short rest _ _ h14]
      simp
    · rw [if_neg hw, rateWaitGo_short rest _ _ h14]
      show (0 : ℚ) ≥ _
      linarith [not_lt.mp hw]
  · intro q now
    simp only [record_gemini_call, List.length_drop, List.length_append,
      List.length_cons, List.length_nil]
    omega
  · intro q now
    have hle : q.length + 1 - GEMINI_RATE_LIMIT_CALLS ≤ q.length := by
      simp only [GEMINI_RATE_LIMIT_CALLS]
      omega
    show ((q ++ [now]).drop ((q ++ [now]).length - GEMINI_RATE_LIMIT_CALLS)).getLast?
        = some now
    rw [List.drop_append_of_le_length (by simp; omega)]
    exact List.getLast?_concat _

/-- C6 witness: a full queue of zeros with `now = 30` waits at least thirty
seconds, and recording afterwards appends the time at the back. -/
theorem rate_governor_behaviour_witness :
    (wait_gemini_rate_limit (0 :: List.replicate 14 (0 : ℚ)) 30).2.2
      ≥ 0 + GEMINI_RATE_LIMIT_WINDOW_SEC - 30 ∧
    (record_gemini_call (List.replicate 14 (0 : ℚ)) 60).getLast? = some 60 := by
  constructor
  · exact rate_governor_behaviour.1 0 (List.replicate 14 0) 30
      (by simp [GEMINI_RATE_LIMIT_CALLS])
  · exact rate_governor_behaviour.2.2.2 (List.replicate 14 0) 60

/-- C7: when the remote rejects an organization write with status 422 and a
truthy domain was supplied, the write is reissued exactly once with the
`domains` key omitted and all other fields unchanged — two outbound calls in
total — and if the retry is accepted the record outcome is a success, for
both the create (POST) and the update (PATCH) paths. -/
theorem domain_conflict_retry (send : Bool → OrgPayload → Nat) (respId : String)
    (name : String) (cf : List (String × String)) (d : String) (hd : d ≠ "") :
    (send false ⟨some name, cf, some [d]⟩ = 422 →
      (upsert_organization send respId name cf (some d) none).1
        = [(false, ⟨some name, cf, some [d]⟩), (false, ⟨some name, cf, none⟩)] ∧
      (send false ⟨some name, cf, none⟩ < 400 →
        (upsert_organization send respId name cf (some d) none).2
          = Except.ok (respId, "created"))) ∧
    (∀ oid : String, send true ⟨none, cf, some [d]⟩ = 422 →
      (upsert_organization send respId name cf (some d) (some oid)).1
        = [(true, ⟨none, cf, some [d]⟩), (true, ⟨none, cf, none⟩)] ∧
      (send true ⟨none, cf, none⟩ < 400 →
        (upsert_organization send respId name cf (some d) (some oid)).2
          = Except.ok (oid, "updated"))) := by
  have hbase : orgPayloadBase cf (some d) = ⟨none, cf, some [d]⟩ := by
    simp [orgPayloadBase, hd]
  have htruthy : domainTruthy (some d) = true := by simp [domainTruthy, hd]
  constructor
  · intro h422
    rw [upsert_organization]
    rw [hbase]
    rw [if_pos ⟨h422, htruthy⟩]
    refine ⟨rfl, fun hok => ?_⟩
    simp [hok]
  · intro oid h422
    rw [upsert_organization]
    rw [hbase]
    rw [if_pos ⟨h422, htruthy⟩]
    refine ⟨rfl, fun hok => ?_⟩
    simp [hok]

/-- C7 witness: a remote that rejects any payload carrying domains with 422
and accepts domain-free payloads triggers exactly the two-call retry on both
paths, with successful outcomes. -/
theorem domain_conflict_retry_witness :
    (upsert_organization (fun _ pl => if pl.domains.isSome then 422 else 200)
        "id9" "ACME" [] (some "example.com") none).1
      = [(false, ⟨some "ACME", [], some ["example.com"]⟩),
         (false, ⟨some "ACME", [], none⟩)] ∧
    (upsert_organization (fun _ pl => if pl.domains.isSome then 422 else 200)
        "id9" "ACME" [] (some "example.com") none).2
      = Except.ok ("id9", "created") ∧
    (upsert_organization (fun _ pl => if pl.domains.isSome then 422 else 200)
        "id9" "ACME" [] (some "example.com") (some "id0")).2
      = Except.ok ("id0", "updated") := by
  have h := domain_conflict_retry (fun _ pl => if pl.domains.isSome then 422 else 200)
    "id9" "ACME" [] "example.com" (by decide)
  have h1 := h.1 (by decide)
  have h2 := h.2 "id0" (by decide)
  exact ⟨h1.1, h1.2 (by decide), (h2.2 (by decide))⟩

/-- C8 (code bug): a fenced but otherwise well-formed JSON response is
correctly unfenced by the suitability and origin judges and by the crawler
judge, but `interpret_metadata_openai`'s substitution — whose pattern is
written with doubled backslashes and so demands a literal backslash in the
input — leaves the response untouched, the structural parse then fails, and
the function falls back to all-empty interpretation values even though the
same oracle parses the properly stripped body. -/
theorem metadata_fence_strip_divergence :
    fenceStrip "```json\n\x7b\"a\": \"b\"\x7d\n```" = "\x7b\"a\": \"b\"\x7d" ∧
    crawlerNormalize "```json\n\x7b\"a\": \"b\"\x7d\n```" = "\x7b\"a\": \"b\"\x7d" ∧
    fenceStripBug "```json\n\x7b\"a\": \"b\"\x7d\n```"
      = "```json\n\x7b\"a\": \"b\"\x7d\n```" ∧
    interpret_metadata_openai (some "k")
        (Except.ok "```json\n\x7b\"a\": \"b\"\x7d\n```")
        (fun s => if s = "\x7b\"a\": \"b\"\x7d"
                  then Except.ok ⟨some "v", none, none, none, none⟩
                  else Except.error "Expecting value")
      = metaEmpty 1 ∧
    judge_suitability (some "k")
        (Except.ok "```json\n\x7b\"a\": \"b\"\x7d\n```")
        (fun s => if s = "\x7b\"a\": \"b\"\x7d"
                  then Except.ok ⟨some true, some "ok"⟩
                  else Except.error "Expecting value") "新製品を発売" ""
      = ⟨some true, "ok", 1⟩ := by
  refine ⟨by decide, by decide, by decide, by decide, by decide⟩

/-- The target list of the reconciliation filter is exactly the rows passing
all four guards, in order. -/
theorem selectTargets_eq_filter (rows : List (List (String × String))) :
    (selectTargets rows).1 = rows.filter rowEligible := by
  induction rows with
  | nil => rfl
  | cons r rest ih =>
    simp only [selectTargets]
    by_cases h1 : pyLower (col r "영업 적합성") = "true"
    · rw [if_neg (by simp [h1])]
      by_cases h2 : col r "한국 회사 여부" = "비한국"
      · rw [if_neg (by simp [h2])]
        by_cases h3 : col r "이메일" = "" ∨ pyContains (pyLower (col r "이메일")) "wordpress" = true
        · rw [if_pos h3]
          have he : rowEligible r = false := by
            rcases h3 with h3 | h3 <;> simp [rowEligible, h3]
          rw [List.filter_cons_of_neg (by simp [he])]
          exact ih
        · rw [if_neg h3]
          push_neg at h3
          by_cases h4 : col r "Relate_등록여부" = ""
          · rw [if_neg (by simp [h4])]
            have he : rowEligible r = true := by
              simp [rowEligible, h1, h2, h3.1, h3.2, h4]
            rw [List.filter_cons_of_pos (by simp [he])]
            simp [ih]
          · rw [if_pos h4]
            have he : rowEligible r = false := by
              simp [rowEligible, h1, h2, h3.1, h3.2, h4]
            rw [List.filter_cons_of_neg (by simp [he])]
            exact ih
      · rw [if_pos h2]
        have he : rowEligible r = false := by simp [rowEligible, h2]
        rw [List.filter_cons_of_neg (by simp [he])]
        exact ih
    · rw [if_pos h1]
      have he : rowEligible r = false := by simp [rowEligible, h1]
      rw [List.filter_cons_of_neg (by simp [he])]
      exact ih

/-- C9: a ledger row is selected for reconciliation exactly when its trimmed
suitability cell equals "true" case-insensitively, its trimmed origin label
is exactly 비한국, its trimmed email is non-empty and does not contain
"wordpress" case-insensitively, and its trimmed status cell is empty; in
particular rows labelled 불명 or 한국, and rows with any non-blank status,
are never selected. -/
theorem reconciliation_selection_iff (rows : List (List (String × String)))
    (row : List (String × String)) :
    row ∈ (selectTargets rows).1 ↔
      (row ∈ rows ∧ pyLower (col row "영업 적합성") = "true" ∧
       col row "한국 회사 여부" = "비한국" ∧
       col row "이메일" ≠ "" ∧
       pyContains (pyLower (col row "이메일")) "wordpress" = false ∧
       col row "Relate_등록여부" = "") := by
  rw [selectTargets_eq_filter, List.mem_filter]
  constructor
  · rintro ⟨hmem, helig⟩
    simp only [rowEligible, Bool.and_eq_true, beq_iff_eq, Bool.not_eq_true',
      beq_eq_false_iff_ne] at helig
    obtain ⟨⟨⟨h1, h2⟩, h3, h4⟩, h5⟩ := helig
    exact ⟨hmem, h1, h2, h3, h4, h5⟩
  · rintro ⟨hmem, h1, h2, h3, h4, h5⟩
    refine ⟨hmem, ?_⟩
    simp [rowEligible, h1, h2, h3, h4, h5]
